import Mathlib

/-!
Shallow embedding of the colorweave color-analysis core
(`src/c_weave/utils/color.py` and `src/c_weave/wallpaper.py`).

Modelling conventions:
* Machine floats are modelled by `ℚ` (exact arithmetic; every tolerance the
  code compares against is many orders of magnitude above double rounding
  error).
* A Python exception is modelled by an `Option`/`Except` result (`none` /
  `.error _`), a normal return by `some` / `.ok`.
* The external CIEDE2000 distance (library `colormath`) is an opaque
  collaborator; functions that call it are parametrised by a distance
  function `d : String → String → ℚ`.
* `random.sample(points, k)` is modelled by an explicit `seedChoice`
  argument together with the guard that makes `sample` raise `ValueError`
  when `k` exceeds the population size.
-/

namespace CWeave

/-- Python `int()` applied to a float: truncation toward zero
(`q.num.tdiv q.den` is toward-zero division of the reduced fraction). -/
def truncInt (q : ℚ) : ℤ := q.num.tdiv q.den

/-- Hex digits of `m` (big-endian, lowercase, no leading zeros), with fuel;
the digit list produced by Python `"%x"` for a non-negative argument. -/
def hexRepCore : ℕ → ℕ → List Char
  | 0, _ => []
  | fuel + 1, m => if m = 0 then [] else hexRepCore fuel (m / 16) ++ [Nat.digitChar (m % 16)]

/-- Python `"%x" % m` for `m ≥ 0`, as a character list. -/
def hexRep (m : ℕ) : List Char := if m = 0 then ['0'] else hexRepCore m m

/-- Python `"%02x" % n`: zero-pad to width two; a negative `n` is rendered
with a leading minus sign (Python counts the sign toward the width, and a
sign plus at least one digit already fills width two, so no padding). -/
def fmt02x (n : ℤ) : List Char :=
  if n < 0 then '-' :: hexRep n.natAbs
  else match hexRep n.toNat with
    | [c] => ['0', c]
    | ds => ds

/-- BT.601 RGB → YUV, `color.py` lines 65-70. -/
def rgb_to_yuv (rgb : ℚ × ℚ × ℚ) : ℚ × ℚ × ℚ :=
  (0.299 * rgb.1 + 0.587 * rgb.2.1 + 0.114 * rgb.2.2,
   -0.14713 * rgb.1 - 0.28886 * rgb.2.1 + 0.436 * rgb.2.2,
   0.615 * rgb.1 - 0.51499 * rgb.2.1 - 0.10001 * rgb.2.2)

/-- Inverse-transformed red channel of `yuv_to_hex` (`color.py` line 75). -/
def chanR (yuv : ℚ × ℚ × ℚ) : ℚ := yuv.1 + 1.13983 * yuv.2.2

/-- Inverse-transformed green channel (`color.py` line 76). -/
def chanG (yuv : ℚ × ℚ × ℚ) : ℚ := yuv.1 - 0.39465 * yuv.2.1 - 0.58060 * yuv.2.2

/-- Inverse-transformed blue channel (`color.py` line 77). -/
def chanB (yuv : ℚ × ℚ × ℚ) : ℚ := yuv.1 + 2.03211 * yuv.2.1

/-- From `color.py` lines 73-78: `"#%02x%02x%02x" % (int(r), int(g), int(b))`.
Note the code truncates but does NOT clamp the channels. -/
def yuv_to_hex (yuv : ℚ × ℚ × ℚ) : String :=
  ⟨'#' :: (fmt02x (truncInt (chanR yuv)) ++ fmt02x (truncInt (chanG yuv)) ++
           fmt02x (truncInt (chanB yuv)))⟩

/-- A lowercase hex digit. -/
def isHexDigitChar (c : Char) : Bool :=
  ('0' ≤ c && c ≤ '9') || ('a' ≤ c && c ≤ 'f')

/-- The spec's Color invariant: a `#` followed by six hex digits. -/
def isValidHexColor (s : String) : Bool :=
  match s.data with
  | '#' :: rest => rest.length == 6 && rest.all isHexDigitChar
  | _ => false

/-! ## PaletteExtractor: weighted k-means (`color.py` lines 56-134) -/

/-- The `Point(coords, n, ct)` record: YUV coordinates plus the pixel-count weight.
The `n` field is the constant dimension 3, left implicit by using a triple. -/
structure Point where
  coords : ℚ × ℚ × ℚ
  ct : ℕ
deriving DecidableEq, Repr

/-- The `Cluster(points, center, n)` record; the constant dimension field is implicit. -/
structure Cluster where
  points : List Point
  center : Point
deriving DecidableEq, Repr

/-- Squared euclidean distance between two points (`euclidean`, lines 88-89,
computes the square root).  Every comparison the code makes with these values
is distance-against-distance or distance-against-the-nonnegative threshold,
and `Real.sqrt` is strictly monotone on nonnegatives, so comparing squares is
an exact model of comparing the square roots. -/
def dist2 (p q : Point) : ℚ :=
  (p.coords.1 - q.coords.1) ^ 2 + (p.coords.2.1 - q.coords.2.1) ^ 2 +
    (p.coords.2.2 - q.coords.2.2) ^ 2

/-- Index of the nearest cluster center (lines 106-113): scan clusters in
order, keeping the first strict improvement (`distance < smallest_distance`,
starting from infinity).  `none` models zero clusters, where Python's `idx`
is never assigned and `plists[idx]` raises `UnboundLocalError`. -/
def bestIdx (clusters : List Cluster) (p : Point) : Option ℕ :=
  ((clusters.foldl
    (fun acc c =>
      match acc with
      | (i, none) => (i + 1, some (i, dist2 p c.center))
      | (i, some (bi, bd)) =>
        if dist2 p c.center < bd then (i + 1, some (i, dist2 p c.center))
        else (i + 1, some (bi, bd)))
    ((0 : ℕ), (none : Option (ℕ × ℚ))))).2.map Prod.fst

/-- The per-cluster point lists built by one assignment pass (lines 104-113);
points keep their input order, as with Python's successive `append`s. -/
def plistsOf (clusters : List Cluster) (points : List Point) : List (List Point) :=
  (List.range clusters.length).map
    (fun i => points.filter (fun p => decide (bestIdx clusters p = some i)))

/-- The `calculate_center(points, n)` helper (lines 91-98): count-weighted mean of the
coordinates.  Python divides by `plen`; with an empty point list that is a
`ZeroDivisionError`, modelled by `none`. -/
def calculate_center (pts : List Point) : Option Point :=
  if (pts.map Point.ct).sum = 0 then none
  else some ⟨((pts.map (fun p => p.coords.1 * (p.ct : ℚ))).sum / ((pts.map Point.ct).sum : ℚ),
             (pts.map (fun p => p.coords.2.1 * (p.ct : ℚ))).sum / ((pts.map Point.ct).sum : ℚ),
             (pts.map (fun p => p.coords.2.2 * (p.ct : ℚ))).sum / ((pts.map Point.ct).sum : ℚ)),
            1⟩

/-- A Python exception escaping `kmeans`, or the iteration budget of the
model running out. -/
inductive KErr
  | sampleValueError
  | unboundLocal
  | divByZero
  | outOfFuel
deriving DecidableEq, Repr

/-- Recenter pass (lines 115-121): pair each old cluster with its new point
list, computing the new cluster and its squared displacement; the first empty
point list raises `ZeroDivisionError` inside `calculate_center`.  The two
lists always have equal length at call sites. -/
def recenter : List Cluster → List (List Point) → Except KErr (List (Cluster × ℚ))
  | [], _ => .ok []
  | _ :: _, [] => .error .divByZero
  | c :: cs, pl :: pls =>
    match calculate_center pl with
    | none => .error .divByZero
    | some ctr =>
      match recenter cs pls with
      | .error e => .error e
      | .ok rest => .ok ((⟨pl, ctr⟩, dist2 c.center ctr) :: rest)

/-- One iteration of the `while True` body (lines 103-124): assignment pass,
recenter pass, and the maximum (squared) centroid displacement. -/
def kmeansStep (points : List Point) (clusters : List Cluster) :
    Except KErr (List Cluster × ℚ) :=
  if clusters.isEmpty && !points.isEmpty then .error .unboundLocal
  else
    match recenter clusters (plistsOf clusters points) with
    | .error e => .error e
    | .ok cds => .ok (cds.map Prod.fst, (cds.map Prod.snd).foldl max 0)

/-- The `while True` loop (lines 103-126) with an explicit iteration budget;
stop when the (squared) max displacement is below the (squared) threshold. -/
def kmeansLoop (points : List Point) (minDiff : ℚ) :
    ℕ → List Cluster → Except KErr (List Cluster)
  | 0, _ => .error .outOfFuel
  | fuel + 1, clusters =>
    match kmeansStep points clusters with
    | .error e => .error e
    | .ok (next, diff2) =>
      if diff2 < minDiff ^ 2 then .ok next
      else kmeansLoop points minDiff fuel next

/-- The `kmeans(points, k, min_diff)` function (lines 100-126).  `random.sample(points, k)`
raises `ValueError` when `k` exceeds the population size; the sampled seeds
themselves are modelled by the explicit `seedChoice` argument. -/
def kmeans (points : List Point) (k : ℕ) (minDiff : ℚ) (fuel : ℕ)
    (seedChoice : List Point) : Except KErr (List Cluster) :=
  if points.length < k then .error .sampleValueError
  else kmeansLoop points minDiff fuel (seedChoice.map (fun p => ⟨[p], p⟩))

/-- The lists `random.sample(points, k)` can return: `k` elements of the
population, pairwise-distinct positions (here: pairwise-distinct values,
which coincides for the duplicate-free point sets `get_points` builds). -/
def isSample (points seedChoice : List Point) (k : ℕ) : Prop :=
  seedChoice.length = k ∧ seedChoice.Nodup ∧ seedChoice ⊆ points

instance (points seedChoice : List Point) (k : ℕ) :
    Decidable (isSample points seedChoice k) := by
  unfold isSample; infer_instance

/-- Point of the crash instance at luma 0, weight 1. -/
def pA : Point := ⟨(0, 0, 0), 1⟩

/-- Point of the crash instance at luma 7/5, weight 100. -/
def pZ : Point := ⟨(7/5, 0, 0), 100⟩

/-- Point of the crash instance at luma 3, weight 1. -/
def pG : Point := ⟨(3, 0, 0), 1⟩

/-- Point of the crash instance at luma 5, weight 100. -/
def pX : Point := ⟨(5, 0, 0), 100⟩

/-- Point of the crash instance at luma 501/100, weight 1000. -/
def pY : Point := ⟨(501/100, 0, 0), 1000⟩

/-- Point of the crash instance at luma 7, weight 1. -/
def pW : Point := ⟨(7, 0, 0), 1⟩

/-- The weighted point set of the `kmeans` crash witness: six colinear YUV
points (e.g. near-gray pixels, which project close to the luma axis). -/
def crashPts : List Point := [pA, pZ, pG, pX, pY, pW]

/-- One possible value of `random.sample(crashPts, 3)`. -/
def crashSeeds : List Point := [pA, pG, pW]

/-- The seed clusters built from `crashSeeds` (line 101). -/
def seedCl : List Cluster := [⟨[pA], pA⟩, ⟨[pG], pG⟩, ⟨[pW], pW⟩]

/-- The cluster state after the first iteration on the crash instance. -/
def cl1 : List Cluster :=
  [⟨[pA, pZ], ⟨(140/101, 0, 0), 1⟩⟩,
   ⟨[pG, pX], ⟨(503/101, 0, 0), 1⟩⟩,
   ⟨[pY, pW], ⟨(5017/1001, 0, 0), 1⟩⟩]

/-! ## ColorSpace: hex validity and the YUV round trip -/

/-- The channel triple of the round trip `yuv_to_hex(rgb_to_yuv(c))`,
exactly the three integers `yuv_to_hex` hex-encodes. -/
def roundtripChannels (r g b : ℕ) : ℤ × ℤ × ℤ :=
  (truncInt (chanR (rgb_to_yuv ((r : ℚ), (g : ℚ), (b : ℚ)))),
   truncInt (chanG (rgb_to_yuv ((r : ℚ), (g : ℚ), (b : ℚ)))),
   truncInt (chanB (rgb_to_yuv ((r : ℚ), (g : ℚ), (b : ℚ)))))

/-! ## ColorDiversitySelector (`color.py` lines 137-162)

The perceptual distance — colormath's CIEDE2000 composed with the
hex → Lab conversion — is an external collaborator, passed in as a
parameter `d`. -/

/-- Python `min(delta_e_cie2000(color, s) for s in selected)` (line 155); the code
only evaluates this with a non-empty `selected`. -/
def minDistTo (d : String → String → ℚ) (c : String) : List String → ℚ
  | [] => 0
  | s :: ss => (ss.map (d c)).foldl min (d c s)

/-- The fold body of one greedy pass (lines 153-158). -/
def gvcScan (d : String → String → ℚ) (sel : List String)
    (acc : ℚ × Option String) (c : String) : ℚ × Option String :=
  if c ∈ sel then acc
  else if minDistTo d c sel > acc.1 then (minDistTo d c sel, some c) else acc

/-- One greedy pass (lines 151-158): start from
`max_diff = 0, max_color = None`, scan the colors, keep the first strict
improvement.  `none` models `max_color` remaining `None` after the scan;
the `None` the code then appends crashes the function (in the next pass's
`delta_e` call, or in the final hex conversion), so the caller observes an
exception. -/
def selectStep (d : String → String → ℚ) (labs sel : List String) : Option String :=
  (labs.foldl (gvcScan d sel) ((0 : ℚ), (none : Option String))).2

/-- The selection loop (lines 150-159): `n - 1` iterations. -/
def gvcGo (d : String → String → ℚ) (labs : List String) :
    ℕ → List String → Option (List String)
  | 0, sel => some sel
  | fuel + 1, sel =>
    match selectStep d labs sel with
    | none => none
    | some c => gvcGo d labs fuel (sel ++ [c])

/-- The `get_varying_colors(colors, n)` function (lines 137-162).  Python compares Lab
objects by identity in `color not in selected`; distinct hex colors give
distinct Lab values, and a zero-distance duplicate can never win the strict
`>` of the scan, so value comparison is an exact behavioural model. -/
def get_varying_colors (d : String → String → ℚ) (colors : List String)
    (n : ℕ) : Option (List String) :=
  if colors.length ≤ n then some colors
  else
    match colors with
    | [] => some []
    | c0 :: _ => gvcGo d colors (n - 1) [c0]

/-- The discrete metric on hex strings: a stand-in for CIEDE2000 satisfying
its two properties the theorems rely on (zero on equal colors, positive on
distinct ones). -/
def dDisc : String → String → ℚ := fun a b => if a = b then 0 else 1

/-! ## SimilarityRanker (`wallpaper.py` lines 248-314)

The perceptual distance (CIEDE2000 after hex → Lab conversion,
`color_distance` in lines 266-271) is the collaborator parameter `d`; real
distances are non-negative, so the divisions `1 / (1 + d …)` below are the
exact totalisations of the Python expressions. -/

/-- A wallpaper record as the ranking code reads it: name, type tag, and
optionally a stored palette (`"colors" not in wallpaper` ↦ `none`). -/
structure Wallpaper where
  name : String
  type : String
  colors : Option (List String)
deriving DecidableEq, Repr

/-- The `filter_wallpapers_by_type` function (lines 248-249). -/
def filter_wallpapers_by_type (wallpapers : List Wallpaper)
    (target_type : String) : List Wallpaper :=
  wallpapers.filter
    (fun w => decide (w.type = target_type) || decide (w.type = "both"))

/-- The spec's wording of the type filter (§4.5 step 1): drop any candidate
whose type tag does not match the requested variant type and is not the
universal `both` tag. -/
def specTypeKeep (w : Wallpaper) (target_type : String) : Prop :=
  ¬(w.type ≠ target_type ∧ w.type ≠ "both")

instance (w : Wallpaper) (t : String) : Decidable (specTypeKeep w t) := by
  unfold specTypeKeep; infer_instance

/-- Python `max` of a non-empty list of rationals, `m` the first element. -/
def listMax (m : ℚ) (l : List ℚ) : ℚ := l.foldl max m

/-- Python `max(1/(1+color_distance(wc, sc)) for sc in scheme_colors[1:])`
(line 278) for one wallpaper accent color `wc`. -/
def bestSimilarityAgainst (d : String → String → ℚ) (wc s1 : String)
    (stail : List String) : ℚ :=
  listMax (1 / (1 + d wc s1)) (stail.map (fun sc => 1 / (1 + d wc sc)))

/-- The `calculate_weighted_color_similarity` function (lines 252-286).  `none` models
the exceptions the body can raise: `IndexError` on `[0]` of an empty list,
`ValueError` from `max(())` when the scheme has no accent colors while the
wallpaper does, and `ZeroDivisionError` from
`sum(accent_similarities) / len(accent_similarities)` when the wallpaper
contributes no accent color (lines 275-281). -/
def calculate_weighted_color_similarity (d : String → String → ℚ)
    (wallpaper_colors scheme_colors : List String)
    (background_weight : ℚ) : Option ℚ :=
  match wallpaper_colors, scheme_colors with
  | w0 :: wrest, s0 :: srest =>
    match wrest, srest with
    | _ :: _, s1 :: stail =>
      let accent := wrest.map (fun wc => bestSimilarityAgainst d wc s1 stail)
      some (background_weight * (1 / (1 + d w0 s0)) +
            (1 - background_weight) * (accent.sum / (accent.length : ℚ)))
    | [], _ => none
    | _ :: _, [] => none
  | _, _ => none

/-- The Python default `background_weight: float = 0.6` (line 255). -/
def defaultBackgroundWeight : ℚ := 0.6

/-- The spec's wording of the weighted score (§4.5 step 3):
`w·bgSimilarity + (1-w)·avgAccentSimilarity`, where `bgSimilarity`
compares only the designated background colors and `avgAccentSimilarity`
averages best-match `1/(1+distance)` similarity of the remaining candidate
colors over the non-background scheme colors. -/
def specWeightedScore (d : String → String → ℚ)
    (candidate scheme : List String) (w : ℚ) : Option ℚ :=
  match candidate, scheme with
  | c0 :: cs, s0 :: s1 :: stail =>
    match cs with
    | [] => none
    | _ :: _ =>
      some (w * (1 / (1 + d c0 s0)) + (1 - w) *
        (((cs.map (fun c => bestSimilarityAgainst d c s1 stail)).sum) /
          ((cs.length : ℚ))))
  | _, _ => none

/-- Python `max(1, int(len(ranked) * p))` (lines 309 and 235). -/
def topCount (len : ℕ) (p : ℚ) : ℕ :=
  (max 1 (truncInt ((len : ℚ) * p))).toNat

/-- The truncation `ranked[:top_n]` (lines 309-311 and 235-237). -/
def truncateRanked {α : Type} (ranked : List α) (p : ℚ) : List α :=
  ranked.take (topCount ranked.length p)

/-- Stable insertion into a descending list: the new element goes after
every earlier element with an equal or larger score. -/
def insertDesc (x : Wallpaper × ℚ) :
    List (Wallpaper × ℚ) → List (Wallpaper × ℚ)
  | [] => [x]
  | y :: ys => if y.2 < x.2 then x :: y :: ys else y :: insertDesc x ys

/-- Python `ranked_wallpapers.sort(key=lambda x: x[1], reverse=True)` (line 306):
a stable descending sort by score. -/
def sortDesc (l : List (Wallpaper × ℚ)) : List (Wallpaper × ℚ) :=
  l.foldl (fun acc x => insertDesc x acc) []

/-- The scoring loop of `rank_wallpapers_by_color_similarity`
(lines 292-304): wallpapers without a `colors` key are skipped
(lines 295-297); an exception from `get_varying_colors` or from
`calculate_weighted_color_similarity` aborts the whole pass (`none`). -/
def rankCollect (d : String → String → ℚ) (scheme_colors : List String) :
    List Wallpaper → Option (List (Wallpaper × ℚ))
  | [] => some []
  | w :: ws =>
    match w.colors with
    | none => rankCollect d scheme_colors ws
    | some cs =>
      match get_varying_colors d cs 4 with
      | none => none
      | some wcols =>
        match calculate_weighted_color_similarity d wcols scheme_colors
            defaultBackgroundWeight with
        | none => none
        | some score =>
          match rankCollect d scheme_colors ws with
          | none => none
          | some rest => some ((w, score) :: rest)

/-- The `rank_wallpapers_by_color_similarity` function (lines 289-314). -/
def rank_wallpapers_by_color_similarity (d : String → String → ℚ)
    (wallpapers : List Wallpaper) (scheme_colors : List String)
    (p : Option ℚ) : Option (List Wallpaper) :=
  match rankCollect d scheme_colors wallpapers with
  | none => none
  | some scored =>
    match p with
    | some q => some ((truncateRanked (sortDesc scored) q).map Prod.fst)
    | none => some ((sortDesc scored).map Prod.fst)

/-- Wallpapers of the concrete ranking instances. -/
def wpa : Wallpaper := ⟨"a", "dark", some ["#000000", "#111111"]⟩

def wpb : Wallpaper := ⟨"b", "dark", some ["#222222", "#333333"]⟩

def wpc : Wallpaper := ⟨"c", "dark", some ["#444444", "#555555"]⟩

/-- A candidate whose palette reduces to a single diverse color. -/
def wbad : Wallpaper := ⟨"bad", "dark", some ["#111111"]⟩

/-- The scheme colors of the concrete ranking instances. -/
def scheme2 : List String := ["#000000", "#222222"]

/-- Unfolding lemma: `truncInt` is the floor for non-negative arguments and the negated floor
of the negation otherwise — exactly Python `int()` on floats. -/
theorem truncInt_eq (q : ℚ) : truncInt q = if 0 ≤ q then ⌊q⌋ else -⌊-q⌋ := by
  by_cases h : 0 ≤ q
  · rw [if_pos h, truncInt, Int.tdiv_eq_ediv (Rat.num_nonneg.mpr h) (Int.ofNat_nonneg q.den),
      Rat.floor_def]
  · rw [if_neg h, truncInt]
    have h2 : truncInt (-q) = ⌊-q⌋ := by
      rw [truncInt, Int.tdiv_eq_ediv (Rat.num_nonneg.mpr (by linarith [not_le.mp h]))
        (Int.ofNat_nonneg (-q).den), Rat.floor_def]
    rw [truncInt, Rat.num_neg_eq_neg_num, Rat.den_neg_eq_den, Int.neg_tdiv] at h2
    omega

lemma crash_bA1 : bestIdx seedCl pA = some 0 := by
  norm_num [bestIdx, seedCl, pA, pG, pW, dist2, List.foldl]

lemma crash_bZ1 : bestIdx seedCl pZ = some 0 := by
  norm_num [bestIdx, seedCl, pA, pG, pW, pZ, dist2, List.foldl]

lemma crash_bG1 : bestIdx seedCl pG = some 1 := by
  norm_num [bestIdx, seedCl, pA, pG, pW, dist2, List.foldl]

lemma crash_bX1 : bestIdx seedCl pX = some 1 := by
  norm_num [bestIdx, seedCl, pA, pG, pW, pX, dist2, List.foldl]

lemma crash_bY1 : bestIdx seedCl pY = some 2 := by
  norm_num [bestIdx, seedCl, pA, pG, pW, pY, dist2, List.foldl]

lemma crash_bW1 : bestIdx seedCl pW = some 2 := by
  norm_num [bestIdx, seedCl, pA, pG, pW, dist2, List.foldl]

lemma crash_plists1 : plistsOf seedCl crashPts = [[pA, pZ], [pG, pX], [pY, pW]] := by
  simp [plistsOf, crashPts, show seedCl.length = 3 from rfl,
    show List.range 3 = [0, 1, 2] from rfl, List.filter,
    crash_bA1, crash_bZ1, crash_bG1, crash_bX1, crash_bY1, crash_bW1]

lemma crash_c01 : calculate_center [pA, pZ] = some ⟨(140/101, 0, 0), 1⟩ := by
  norm_num [calculate_center, pA, pZ]

lemma crash_c11 : calculate_center [pG, pX] = some ⟨(503/101, 0, 0), 1⟩ := by
  norm_num [calculate_center, pG, pX]

lemma crash_c21 : calculate_center [pY, pW] = some ⟨(5017/1001, 0, 0), 1⟩ := by
  norm_num [calculate_center, pY, pW]

lemma crash_rec1 : recenter seedCl [[pA, pZ], [pG, pX], [pY, pW]] =
    .ok [(⟨[pA, pZ], ⟨(140/101, 0, 0), 1⟩⟩, 19600/10201),
         (⟨[pG, pX], ⟨(503/101, 0, 0), 1⟩⟩, 40000/10201),
         (⟨[pY, pW], ⟨(5017/1001, 0, 0), 1⟩⟩, 3960100/1002001)] := by
  simp [recenter, seedCl, crash_c01, crash_c11, crash_c21]
  norm_num [dist2, pA, pG, pW]

lemma crash_step1 : kmeansStep crashPts seedCl = .ok (cl1, 3960100/1002001) := by
  rw [kmeansStep, if_neg (by decide), crash_plists1, crash_rec1]
  norm_num [cl1, max_def]

lemma crash_bA2 : bestIdx cl1 pA = some 0 := by
  norm_num [bestIdx, cl1, pA, dist2, List.foldl]

lemma crash_bZ2 : bestIdx cl1 pZ = some 0 := by
  norm_num [bestIdx, cl1, pZ, dist2, List.foldl]

lemma crash_bG2 : bestIdx cl1 pG = some 0 := by
  norm_num [bestIdx, cl1, pG, dist2, List.foldl]

lemma crash_bX2 : bestIdx cl1 pX = some 2 := by
  norm_num [bestIdx, cl1, pX, dist2, List.foldl]

lemma crash_bY2 : bestIdx cl1 pY = some 2 := by
  norm_num [bestIdx, cl1, pY, dist2, List.foldl]

lemma crash_bW2 : bestIdx cl1 pW = some 2 := by
  norm_num [bestIdx, cl1, pW, dist2, List.foldl]

lemma crash_plists2 : plistsOf cl1 crashPts = [[pA, pZ, pG], [], [pX, pY, pW]] := by
  simp [plistsOf, crashPts, show cl1.length = 3 from rfl,
    show List.range 3 = [0, 1, 2] from rfl, List.filter,
    crash_bA2, crash_bZ2, crash_bG2, crash_bX2, crash_bY2, crash_bW2]

/-- The second assignment pass leaves the middle cluster without any point,
so `calculate_center` divides by zero. -/
lemma crash_step2 : kmeansStep crashPts cl1 = .error .divByZero := by
  rw [kmeansStep, if_neg (by decide), crash_plists2]
  norm_num [recenter, calculate_center, pA, pZ, pG]

/-- C1: the claim "the k-means iterate/reassign/recenter loop always reaches
an iteration whose maximum centroid displacement is below `minDiff` and
returns" fails on the code.  `crashSeeds` is a legitimate output of
`random.sample(crashPts, 3)`; the first iteration moves a centroid by more
than the threshold so the loop continues, and the second assignment pass
leaves the middle cluster with no points, so `calculate_center` divides by
`plen = 0` — the run dies with `ZeroDivisionError` instead of returning. -/
theorem kmeans_zero_division_on_crash_instance :
    isSample crashPts crashSeeds 3 ∧
    kmeans crashPts 3 1 2 crashSeeds = .error .divByZero := by
  constructor
  · norm_num [isSample, crashSeeds, crashPts, pA, pZ, pG, pX, pY, pW,
      List.subset_def, Point.mk.injEq, Prod.ext_iff]
  · rw [kmeans, if_neg (by decide),
      show crashSeeds.map (fun p => (⟨[p], p⟩ : Cluster)) = seedCl from rfl,
      show (2 : ℕ) = 1 + 1 from rfl, kmeansLoop, crash_step1]
    show (if ((3960100 : ℚ)/1002001) < 1 ^ 2 then Except.ok cl1
          else kmeansLoop crashPts 1 1 cl1) = .error .divByZero
    rw [if_neg (by norm_num), show (1 : ℕ) = 0 + 1 from rfl, kmeansLoop, crash_step2]

/-- C3 counterexample: with fewer (distinct-color) points than the requested
`k`, `kmeans` raises `ValueError` out of `random.sample` — it does not fall
back to duplicate seeding.  Here: one point, `k = 2`. -/
theorem kmeans_single_point_k2_raises :
    kmeans [pA] 2 1 5 [] = .error .sampleValueError := by
  rw [kmeans, if_pos (by decide)]

/-- C3 amended: for every point set with fewer points than `k`, palette
extraction raises `ValueError` from `random.sample(points, k)` (sample
larger than population) instead of seeding with duplicates. -/
theorem kmeans_raises_when_points_lt_k (points : List Point) (k : ℕ)
    (minDiff : ℚ) (fuel : ℕ) (seeds : List Point) (h : points.length < k) :
    kmeans points k minDiff fuel seeds = .error .sampleValueError := by
  rw [kmeans, if_pos h]

/-- Witness for `kmeans_raises_when_points_lt_k` at a concrete input. -/
theorem kmeans_raises_when_points_lt_k_witness :
    [pA].length < 2 ∧ kmeans [pA] 2 1 3 [] = .error .sampleValueError :=
  ⟨by decide, kmeans_raises_when_points_lt_k [pA] 2 1 3 [] (by decide)⟩

/-- C7 counterexample: `k = 0` together with an empty point set (an image
with zero distinct colors) makes `kmeans` return an empty palette — it does
not fail at all, let alone with a typed `InvalidInput` failure. -/
theorem kmeans_k0_empty_returns_palette :
    kmeans [] 0 1 1 [] = .ok [] := by
  norm_num [kmeans, kmeansLoop, kmeansStep, plistsOf, recenter]

/-- C7 amended: there is no `InvalidInput` validation.  With `k = 0`,
`random.sample` returns `[]`; an empty point set then yields a normal
return with an empty palette, while a non-empty point set dies mid-loop
with `UnboundLocalError` (`idx` is never assigned when there are zero
clusters).  An empty point set with `k ≥ 1` dies inside `random.sample`
with `ValueError`. -/
theorem kmeans_k0_behaviour :
    (∀ (points : List Point) (fuel : ℕ), 1 ≤ fuel →
      kmeans points 0 1 fuel [] =
        (if points.isEmpty then .ok [] else .error .unboundLocal)) ∧
    (∀ (k fuel : ℕ) (seeds : List Point), 1 ≤ k →
      kmeans [] k 1 fuel seeds = .error .sampleValueError) := by
  constructor
  · intro points fuel hf
    match fuel, hf with
    | fuel + 1, _ =>
      cases points with
      | nil => norm_num [kmeans, kmeansLoop, kmeansStep, plistsOf, recenter]
      | cons p ps => simp [kmeans, kmeansLoop, kmeansStep]
  · intro k fuel seeds hk
    rw [kmeans, if_pos (by simpa using hk)]

/-- Witness for `kmeans_k0_behaviour` at concrete inputs. -/
theorem kmeans_k0_behaviour_witness :
    1 ≤ 1 ∧ kmeans [pA] 0 1 1 [] = .error .unboundLocal ∧
    kmeans [] 2 1 1 [] = .error .sampleValueError := by
  refine ⟨le_refl 1, ?_, kmeans_k0_behaviour.2 2 1 [] (by norm_num)⟩
  have h := kmeans_k0_behaviour.1 [pA] 1 (le_refl 1)
  simpa using h

set_option maxRecDepth 20000 in
lemma fmt02x_fin256 : ∀ i : Fin 256,
    (fmt02x ((i : ℕ) : ℤ)).length = 2 ∧
    (fmt02x ((i : ℕ) : ℤ)).all isHexDigitChar = true := by decide

/-- Rendering `"%02x"` of an integer in `[0, 255]` gives two lowercase hex digits. -/
lemma fmt02x_ok_of_range (n : ℤ) (h0 : 0 ≤ n) (h1 : n ≤ 255) :
    (fmt02x n).length = 2 ∧ (fmt02x n).all isHexDigitChar = true := by
  have hn : ((n.toNat : ℕ) : ℤ) = n := Int.toNat_of_nonneg h0
  have hlt : n.toNat < 256 := by omega
  have h := fmt02x_fin256 ⟨n.toNat, hlt⟩
  rw [show (((⟨n.toNat, hlt⟩ : Fin 256) : ℕ) : ℤ) = n from hn] at h
  exact h

/-- A truncated value of a rational in `[0, 256)` lies in `[0, 255]`. -/
lemma truncInt_range (q : ℚ) (h0 : 0 ≤ q) (h1 : q < 256) :
    0 ≤ truncInt q ∧ truncInt q ≤ 255 := by
  rw [truncInt_eq, if_pos h0]
  refine ⟨Int.floor_nonneg.mpr h0, ?_⟩
  have : ⌊q⌋ < (256 : ℤ) := Int.floor_lt.mpr (by exact_mod_cast h1)
  omega

/-- C5 counterexample: `yuv_to_hex` does not clamp.  At the YUV input
`(0, 0, 10)` the green channel is `-5.806`, truncated to `-5` and rendered
by `"%02x"` as `"-5"`, so the function returns `"#0b-500"`, which is not a
6-hex-digit color. -/
theorem yuv_to_hex_unclamped_invalid_output :
    yuv_to_hex (0, 0, 10) = "#0b-500" ∧
    isValidHexColor (yuv_to_hex (0, 0, 10)) = false := by
  have hr : truncInt (chanR (0, 0, 10)) = 11 := by
    have h : chanR (0, 0, 10) = 113983 / 10000 := by norm_num [chanR]
    rw [h, truncInt_eq]; norm_num
  have hg : truncInt (chanG (0, 0, 10)) = -5 := by
    have h : chanG (0, 0, 10) = -2903 / 500 := by norm_num [chanG]
    rw [h, truncInt_eq]; norm_num
  have hb : truncInt (chanB (0, 0, 10)) = 0 := by
    have h : chanB (0, 0, 10) = 0 := by norm_num [chanB]
    rw [h, truncInt_eq]; norm_num
  have hs : yuv_to_hex (0, 0, 10) = "#0b-500" := by
    rw [yuv_to_hex, hr, hg, hb]; rfl
  exact ⟨hs, by rw [hs]; decide⟩

/-- C5 amended: each channel is truncated to an integer but NOT clamped;
the returned string is a valid `#rrggbb` color whenever each
inverse-transformed channel already lies in `[0, 256)` (clamping would make
this unconditional, the code leaves it conditional). -/
theorem yuv_to_hex_valid_when_channels_in_range (y u v : ℚ)
    (hr0 : 0 ≤ chanR (y, u, v)) (hr1 : chanR (y, u, v) < 256)
    (hg0 : 0 ≤ chanG (y, u, v)) (hg1 : chanG (y, u, v) < 256)
    (hb0 : 0 ≤ chanB (y, u, v)) (hb1 : chanB (y, u, v) < 256) :
    isValidHexColor (yuv_to_hex (y, u, v)) = true := by
  obtain ⟨hrl, hra⟩ := fmt02x_ok_of_range _ (truncInt_range _ hr0 hr1).1 (truncInt_range _ hr0 hr1).2
  obtain ⟨hgl, hga⟩ := fmt02x_ok_of_range _ (truncInt_range _ hg0 hg1).1 (truncInt_range _ hg0 hg1).2
  obtain ⟨hbl, hba⟩ := fmt02x_ok_of_range _ (truncInt_range _ hb0 hb1).1 (truncInt_range _ hb0 hb1).2
  show ((fmt02x (truncInt (chanR (y, u, v))) ++ fmt02x (truncInt (chanG (y, u, v))) ++
         fmt02x (truncInt (chanB (y, u, v)))).length == 6 &&
        (fmt02x (truncInt (chanR (y, u, v))) ++ fmt02x (truncInt (chanG (y, u, v))) ++
         fmt02x (truncInt (chanB (y, u, v)))).all isHexDigitChar) = true
  simp [List.all_append, hrl, hgl, hbl, hra, hga, hba]

/-- Witness for `yuv_to_hex_valid_when_channels_in_range` at `(100, 0, 0)`. -/
theorem yuv_to_hex_valid_witness :
    (0 ≤ chanR (100, 0, 0) ∧ chanR (100, 0, 0) < 256) ∧
    (0 ≤ chanG (100, 0, 0) ∧ chanG (100, 0, 0) < 256) ∧
    (0 ≤ chanB (100, 0, 0) ∧ chanB (100, 0, 0) < 256) ∧
    isValidHexColor (yuv_to_hex (100, 0, 0)) = true := by
  refine ⟨⟨?_, ?_⟩, ⟨?_, ?_⟩, ⟨?_, ?_⟩, yuv_to_hex_valid_when_channels_in_range
    100 0 0 ?_ ?_ ?_ ?_ ?_ ?_⟩ <;> norm_num [chanR, chanG, chanB]

/-- Truncating a rational within one unit of a natural stays within one
unit: `c - 1 ≤ truncInt q ≤ c`, and the result is non-negative. -/
lemma truncInt_near (c : ℕ) (q : ℚ) (hlow : (c : ℚ) - 1 < q)
    (hhigh : q < (c : ℚ) + 1) :
    (c : ℤ) - 1 ≤ truncInt q ∧ truncInt q ≤ c ∧ 0 ≤ truncInt q := by
  rw [truncInt_eq]
  by_cases h : 0 ≤ q
  · rw [if_pos h]
    have hup : ⌊q⌋ < (c : ℤ) + 1 := Int.floor_lt.mpr (by push_cast; linarith)
    have hdn : (c : ℤ) - 1 ≤ ⌊q⌋ := Int.le_floor.mpr (by push_cast; linarith)
    have h0 : 0 ≤ ⌊q⌋ := Int.floor_nonneg.mpr h
    omega
  · rw [if_neg h]
    have hq : q < 0 := not_le.mp h
    have hc : c = 0 := by
      by_contra hcne
      have h1 : (1 : ℚ) ≤ (c : ℚ) := by exact_mod_cast Nat.one_le_iff_ne_zero.mpr hcne
      linarith
    subst hc
    have h1 : (0 : ℚ) ≤ -q := by linarith
    have h2 : -q < 1 := by
      have h3 : ((0 : ℕ) : ℚ) - 1 < q := hlow
      push_cast at h3
      linarith
    have hz : ⌊-q⌋ = 0 := by
      rw [Int.floor_eq_zero_iff]
      exact Set.mem_Ico.mpr ⟨h1, h2⟩
    rw [hz]
    norm_num

lemma chanR_closed_form (r g b : ℚ) :
    chanR (rgb_to_yuv (r, g, b)) =
      r + (-45500 * r - 10517 * g + 56017 * b) / 10 ^ 10 := by
  simp only [chanR, rgb_to_yuv]
  ring

lemma chanG_closed_form (r g b : ℚ) :
    chanG (rgb_to_yuv (r, g, b)) =
      g + (-41455 * r + 17930 * g - 15940 * b) / 10 ^ 10 := by
  simp only [chanG, rgb_to_yuv]
  ring

lemma chanB_closed_form (r g b : ℚ) :
    chanB (rgb_to_yuv (r, g, b)) =
      b + (156557 * r + 47054 * g - 400 * b) / 10 ^ 10 := by
  simp only [chanB, rgb_to_yuv]
  ring

/-- C6: for every 8-bit RGB triple, each channel of
`yuv_to_hex(rgb_to_yuv(c))` differs from the original channel by at most
one unit, the encoded channels all lie in `[0, 255]`, and the returned
string is precisely the hex encoding of those channels. -/
theorem yuv_roundtrip_within_one_unit (r g b : ℕ)
    (hr : r ≤ 255) (hg : g ≤ 255) (hb : b ≤ 255) :
    ((roundtripChannels r g b).1 - r).natAbs ≤ 1 ∧
    ((roundtripChannels r g b).2.1 - g).natAbs ≤ 1 ∧
    ((roundtripChannels r g b).2.2 - b).natAbs ≤ 1 ∧
    (0 ≤ (roundtripChannels r g b).1 ∧ (roundtripChannels r g b).1 ≤ 255) ∧
    (0 ≤ (roundtripChannels r g b).2.1 ∧ (roundtripChannels r g b).2.1 ≤ 255) ∧
    (0 ≤ (roundtripChannels r g b).2.2 ∧ (roundtripChannels r g b).2.2 ≤ 255) ∧
    yuv_to_hex (rgb_to_yuv ((r : ℚ), (g : ℚ), (b : ℚ))) =
      ⟨'#' :: (fmt02x (roundtripChannels r g b).1 ++
               fmt02x (roundtripChannels r g b).2.1 ++
               fmt02x (roundtripChannels r g b).2.2)⟩ := by
  have hr0 : (0 : ℚ) ≤ (r : ℚ) := Nat.cast_nonneg r
  have hg0 : (0 : ℚ) ≤ (g : ℚ) := Nat.cast_nonneg g
  have hb0 : (0 : ℚ) ≤ (b : ℚ) := Nat.cast_nonneg b
  have hr1 : (r : ℚ) ≤ 255 := by exact_mod_cast hr
  have hg1 : (g : ℚ) ≤ 255 := by exact_mod_cast hg
  have hb1 : (b : ℚ) ≤ 255 := by exact_mod_cast hb
  have hdenom : (0 : ℚ) < 10 ^ 10 := by norm_num
  have hRnear := truncInt_near r (chanR (rgb_to_yuv ((r : ℚ), g, b)))
    (by rw [chanR_closed_form]
        have : -(10 ^ 10 : ℚ) < -45500 * r - 10517 * g + 56017 * b := by nlinarith
        have hq := (div_lt_div_iff_of_pos_right hdenom).mpr this
        rw [neg_div] at hq
        have h10 : (10 ^ 10 : ℚ) / 10 ^ 10 = 1 := by norm_num
        rw [h10] at hq
        linarith)
    (by rw [chanR_closed_form]
        have : (-45500 * (r:ℚ) - 10517 * g + 56017 * b) < 10 ^ 10 := by nlinarith
        have hq := (div_lt_div_iff_of_pos_right hdenom).mpr this
        have h10 : (10 ^ 10 : ℚ) / 10 ^ 10 = 1 := by norm_num
        rw [h10] at hq
        linarith)
  have hGnear := truncInt_near g (chanG (rgb_to_yuv ((r : ℚ), g, b)))
    (by rw [chanG_closed_form]
        have : -(10 ^ 10 : ℚ) < -41455 * r + 17930 * g - 15940 * b := by nlinarith
        have hq := (div_lt_div_iff_of_pos_right hdenom).mpr this
        rw [neg_div] at hq
        have h10 : (10 ^ 10 : ℚ) / 10 ^ 10 = 1 := by norm_num
        rw [h10] at hq
        linarith)
    (by rw [chanG_closed_form]
        have : (-41455 * (r:ℚ) + 17930 * g - 15940 * b) < 10 ^ 10 := by nlinarith
        have hq := (div_lt_div_iff_of_pos_right hdenom).mpr this
        have h10 : (10 ^ 10 : ℚ) / 10 ^ 10 = 1 := by norm_num
        rw [h10] at hq
        linarith)
  have hBnear := truncInt_near b (chanB (rgb_to_yuv ((r : ℚ), g, b)))
    (by rw [chanB_closed_form]
        have : -(10 ^ 10 : ℚ) < 156557 * r + 47054 * g - 400 * b := by nlinarith
        have hq := (div_lt_div_iff_of_pos_right hdenom).mpr this
        rw [neg_div] at hq
        have h10 : (10 ^ 10 : ℚ) / 10 ^ 10 = 1 := by norm_num
        rw [h10] at hq
        linarith)
    (by rw [chanB_closed_form]
        have : (156557 * (r:ℚ) + 47054 * g - 400 * b) < 10 ^ 10 := by nlinarith
        have hq := (div_lt_div_iff_of_pos_right hdenom).mpr this
        have h10 : (10 ^ 10 : ℚ) / 10 ^ 10 = 1 := by norm_num
        rw [h10] at hq
        linarith)
  obtain ⟨hRa, hRb, hRc⟩ := hRnear
  obtain ⟨hGa, hGb, hGc⟩ := hGnear
  obtain ⟨hBa, hBb, hBc⟩ := hBnear
  refine ⟨?_, ?_, ?_, ⟨hRc, ?_⟩, ⟨hGc, ?_⟩, ⟨hBc, ?_⟩, rfl⟩ <;>
    simp only [roundtripChannels] <;> omega

/-- Witness for `yuv_roundtrip_within_one_unit` at `#336699` = (51,102,153). -/
theorem yuv_roundtrip_witness :
    (51 ≤ 255 ∧ 102 ≤ 255 ∧ 153 ≤ 255) ∧
    ((roundtripChannels 51 102 153).1 - 51).natAbs ≤ 1 := by
  refine ⟨⟨by decide, by decide, by decide⟩, ?_⟩
  exact (yuv_roundtrip_within_one_unit 51 102 153 (by decide) (by decide) (by decide)).1

lemma foldl_gvcScan_isSome (d : String → String → ℚ) (sel : List String) :
    ∀ (l : List String) (acc : ℚ × Option String),
      (acc.2.isSome = true ∨ ∃ c ∈ l, c ∉ sel ∧ acc.1 < minDistTo d c sel) →
      ((l.foldl (gvcScan d sel) acc).2).isSome = true := by
  intro l
  induction l with
  | nil =>
    intro acc h
    rcases h with h | ⟨c, hc, _⟩
    · simpa using h
    · exact absurd hc (List.not_mem_nil c)
  | cons hd tl ih =>
    intro acc hacc
    rw [List.foldl_cons]
    apply ih
    rcases hacc with hsome | ⟨c, hcmem, hcnsel, hcgt⟩
    · left
      by_cases h1 : hd ∈ sel
      · simpa [gvcScan, h1] using hsome
      · by_cases h2 : minDistTo d hd sel > acc.1
        · simp [gvcScan, h1, h2]
        · simpa [gvcScan, h1, h2] using hsome
    · rcases List.mem_cons.mp hcmem with rfl | htl
      · left
        rw [gvcScan, if_neg hcnsel, if_pos hcgt]
        simp
      · by_cases h1 : hd ∈ sel
        · right
          exact ⟨c, htl, hcnsel, by simpa [gvcScan, h1] using hcgt⟩
        · by_cases h2 : minDistTo d hd sel > acc.1
          · left
            simp [gvcScan, h1, h2]
          · right
            exact ⟨c, htl, hcnsel, by simpa [gvcScan, h1, h2] using hcgt⟩

lemma selectStep_isSome (d : String → String → ℚ) (labs sel : List String)
    (h : ∃ c ∈ labs, c ∉ sel ∧ 0 < minDistTo d c sel) :
    (selectStep d labs sel).isSome = true := by
  apply foldl_gvcScan_isSome
  right
  simpa using h

lemma foldl_gvcScan_mem (d : String → String → ℚ) (sel labs : List String) :
    ∀ (l : List String), l ⊆ labs → ∀ (acc : ℚ × Option String),
      (∀ x, acc.2 = some x → x ∈ labs ∧ x ∉ sel) →
      ∀ x, (l.foldl (gvcScan d sel) acc).2 = some x → x ∈ labs ∧ x ∉ sel := by
  intro l
  induction l with
  | nil => intro _ acc hacc x hx; exact hacc x hx
  | cons hd tl ih =>
    intro hsub acc hacc x
    rw [List.foldl_cons]
    apply ih (fun y hy => hsub (List.mem_cons_of_mem hd hy))
    intro y hy
    by_cases h1 : hd ∈ sel
    · exact hacc y (by simpa [gvcScan, h1] using hy)
    · by_cases h2 : minDistTo d hd sel > acc.1
      · have hyhd : hd = y := by simpa [gvcScan, h1, h2] using hy
        exact hyhd ▸ ⟨hsub (List.mem_cons_self hd tl), h1⟩
      · exact hacc y (by simpa [gvcScan, h1, h2] using hy)

lemma selectStep_sound (d : String → String → ℚ) (labs sel : List String)
    (c : String) (h : selectStep d labs sel = some c) : c ∈ labs ∧ c ∉ sel := by
  refine foldl_gvcScan_mem d sel labs labs (List.Subset.refl labs) _ ?_ c h
  intro x hx
  exact absurd hx (by simp)

lemma foldl_min_pos :
    ∀ (l : List ℚ) (a : ℚ), 0 < a → (∀ x ∈ l, 0 < x) → 0 < l.foldl min a := by
  intro l
  induction l with
  | nil => intro a ha _; simpa using ha
  | cons hd tl ih =>
    intro a ha hl
    rw [List.foldl_cons]
    exact ih _ (lt_min ha (hl hd (List.mem_cons_self hd tl)))
      (fun x hx => hl x (List.mem_cons_of_mem hd hx))

lemma minDistTo_pos (d : String → String → ℚ) (c : String) (sel : List String)
    (hne : sel ≠ []) (hpos : ∀ s ∈ sel, 0 < d c s) : 0 < minDistTo d c sel := by
  match sel, hne with
  | s :: ss, _ =>
    show 0 < (ss.map (d c)).foldl min (d c s)
    apply foldl_min_pos
    · exact hpos s (List.mem_cons_self s ss)
    · intro x hx
      obtain ⟨y, hy, rfl⟩ := List.mem_map.mp hx
      exact hpos y (List.mem_cons_of_mem s hy)

lemma nodup_length_le {α : Type} [DecidableEq α] (l1 l2 : List α)
    (h1 : l1.Nodup) (h2 : l1 ⊆ l2) : l1.length ≤ l2.length := by
  have hsub : l1.toFinset ⊆ l2.toFinset := by
    intro x hx
    simp only [List.mem_toFinset] at hx ⊢
    exact h2 hx
  have hcard := Finset.card_le_card hsub
  rw [List.toFinset_card_of_nodup h1] at hcard
  exact hcard.trans l2.toFinset_card_le

lemma gvcGo_total (d : String → String → ℚ) (labs : List String)
    (hl : labs.Nodup)
    (hpos : ∀ x y, x ∈ labs → y ∈ labs → x ≠ y → 0 < d x y) :
    ∀ (fuel : ℕ) (sel : List String), sel ≠ [] → sel.Nodup → sel ⊆ labs →
      sel.length + fuel ≤ labs.length →
      ∃ r, gvcGo d labs fuel sel = some r ∧ r.length = sel.length + fuel := by
  intro fuel
  induction fuel with
  | zero =>
    intro sel _ _ _ _
    exact ⟨sel, rfl, by omega⟩
  | succ fuel ih =>
    intro sel hne hnd hsub hlen
    have hex : ∃ c ∈ labs, c ∉ sel := by
      by_contra hno
      push_neg at hno
      have hss : labs ⊆ sel := hno
      have := nodup_length_le labs sel hl hss
      omega
    obtain ⟨c, hcl, hcs⟩ := hex
    have hmd : 0 < minDistTo d c sel := by
      apply minDistTo_pos d c sel hne
      intro s hs
      refine hpos c s hcl (hsub hs) ?_
      intro hcseq
      exact hcs (hcseq ▸ hs)
    have hsome := selectStep_isSome d labs sel ⟨c, hcl, hcs, hmd⟩
    obtain ⟨c', hc'⟩ := Option.isSome_iff_exists.mp hsome
    obtain ⟨hc'l, hc's⟩ := selectStep_sound d labs sel c' hc'
    have hnd' : (sel ++ [c']).Nodup := by
      rw [List.nodup_append]
      refine ⟨hnd, List.nodup_singleton c', ?_⟩
      intro a ha hb
      rw [List.mem_singleton] at hb
      exact hc's (hb ▸ ha)
    have hsub' : (sel ++ [c']) ⊆ labs := by
      intro x hx
      rcases List.mem_append.mp hx with h | h
      · exact hsub h
      · exact (List.mem_singleton.mp h) ▸ hc'l
    obtain ⟨r, hr, hrlen⟩ := ih (sel ++ [c']) (by simp) hnd' hsub'
      (by rw [List.length_append, List.length_singleton]; omega)
    refine ⟨r, ?_, ?_⟩
    · rw [gvcGo, hc']
      exact hr
    · rw [hrlen, List.length_append, List.length_singleton]
      omega

/-- C4 amended: for every `n ≥ 1` and every duplicate-free color list (with
a genuine perceptual distance: positive between distinct colors),
`get_varying_colors` returns a list of length `min n (len colors)`, and
returns the input unchanged when `len ≤ n`.  With duplicate colors in the
input the function can instead crash (see the counterexample). -/
theorem get_varying_colors_returns_min (d : String → String → ℚ)
    (colors : List String) (n : ℕ) (hn : 1 ≤ n) (hnd : colors.Nodup)
    (hpos : ∀ x y, x ∈ colors → y ∈ colors → x ≠ y → 0 < d x y) :
    ∃ res, get_varying_colors d colors n = some res ∧
      res.length = min n colors.length ∧
      (colors.length ≤ n → res = colors) := by
  by_cases hle : colors.length ≤ n
  · refine ⟨colors, ?_, by omega, fun _ => rfl⟩
    rw [get_varying_colors.eq_def, if_pos hle]
  · push_neg at hle
    match colors, hnd, hpos, hle with
    | c0 :: rest, hnd, hpos, hle =>
      have hgo := gvcGo_total d (c0 :: rest) hnd hpos (n - 1) [c0]
        (by simp) (List.nodup_singleton c0)
        (by intro x hx
            exact (List.mem_singleton.mp hx) ▸ List.mem_cons_self c0 rest)
        (by rw [List.length_singleton]; omega)
      obtain ⟨r, hr, hrlen⟩ := hgo
      refine ⟨r, ?_, ?_, ?_⟩
      · rw [get_varying_colors.eq_def, if_neg (by omega)]
        exact hr
      · rw [hrlen, List.length_singleton]
        omega
      · intro h
        omega

/-- Witness for `get_varying_colors_returns_min` at a concrete input. -/
theorem get_varying_colors_returns_min_witness :
    (1 ≤ 2 ∧ (["#000000", "#ffffff", "#ff0000"] : List String).Nodup) ∧
    (∃ res, get_varying_colors dDisc ["#000000", "#ffffff", "#ff0000"] 2 = some res ∧
      res.length = min 2 (["#000000", "#ffffff", "#ff0000"] : List String).length ∧
      ((["#000000", "#ffffff", "#ff0000"] : List String).length ≤ 2 →
        res = ["#000000", "#ffffff", "#ff0000"])) := by
  refine ⟨⟨by decide, by decide⟩, ?_⟩
  apply get_varying_colors_returns_min dDisc ["#000000", "#ffffff", "#ff0000"] 2
    (by decide) (by decide)
  intro x y _ _ hxy
  simp only [dDisc, if_neg hxy]
  norm_num

/-- C4 counterexample: on a list of four equal colors with `n = 3` the
greedy scan never finds a strictly positive improvement (CIEDE2000 between
equal colors is 0, and `dDisc` agrees with it on the only pairs this run
evaluates), `max_color` stays `None`, and the function crashes instead of
returning `min n len = 3` colors. -/
theorem get_varying_colors_dup_crash :
    get_varying_colors dDisc ["#336699", "#336699", "#336699", "#336699"] 3 = none ∧
    (get_varying_colors dDisc ["#336699", "#336699", "#336699", "#336699"] 3).map
        List.length ≠ some (min 3 4) := by
  have h : get_varying_colors dDisc ["#336699", "#336699", "#336699", "#336699"] 3 = none := by
    norm_num [get_varying_colors, gvcGo, selectStep, gvcScan, minDistTo, dDisc]
  rw [h]
  simp

lemma listMax_mem : ∀ (l : List ℚ) (m : ℚ), listMax m l ∈ m :: l := by
  intro l
  induction l with
  | nil => intro m; simp [listMax]
  | cons h t ih =>
    intro m
    have hm := ih (max m h)
    show t.foldl max (max m h) ∈ m :: h :: t
    rcases List.mem_cons.mp hm with he | ht
    · have he' : t.foldl max (max m h) = max m h := he
      rw [he']
      rcases max_choice m h with h1 | h1 <;> rw [h1]
      · exact List.mem_cons_self m (h :: t)
      · exact List.mem_cons_of_mem m (List.mem_cons_self h t)
    · exact List.mem_cons_of_mem m (List.mem_cons_of_mem h ht)

lemma le_listMax : ∀ (l : List ℚ) (m : ℚ), ∀ x ∈ m :: l, x ≤ listMax m l := by
  intro l
  induction l with
  | nil =>
    intro m x hx
    rw [List.mem_singleton] at hx
    rw [hx]
    simp [listMax]
  | cons h t ih =>
    intro m x hx
    show x ≤ t.foldl max (max m h)
    rcases List.mem_cons.mp hx with rfl | hx'
    · exact le_trans (le_max_left x h) (ih (max x h) (max x h) (List.mem_cons_self _ _))
    · rcases List.mem_cons.mp hx' with rfl | hx''
      · exact le_trans (le_max_right m x) (ih (max m x) (max m x) (List.mem_cons_self _ _))
      · exact ih (max m h) x (List.mem_cons_of_mem _ hx'')

/-- C8: with at least two candidate colors and two scheme colors, the code
computes exactly the spec's weighted score
`w·bgSimilarity + (1-w)·avgAccentSimilarity`; the default weight is
0.6 = 3/5; and each accent's contribution really is the maximum of its
`1/(1+distance)` similarities against the non-background scheme colors. -/
theorem weighted_similarity_formula (d : String → String → ℚ)
    (w0 w1 s0 s1 : String) (wr sr : List String) (bw : ℚ) :
    calculate_weighted_color_similarity d (w0 :: w1 :: wr) (s0 :: s1 :: sr) bw =
      specWeightedScore d (w0 :: w1 :: wr) (s0 :: s1 :: sr) bw ∧
    specWeightedScore d (w0 :: w1 :: wr) (s0 :: s1 :: sr) bw =
      some (bw * (1 / (1 + d w0 s0)) + (1 - bw) *
        ((((w1 :: wr).map (fun wc => bestSimilarityAgainst d wc s1 sr)).sum) /
          (((w1 :: wr).length : ℚ)))) ∧
    defaultBackgroundWeight = 3 / 5 ∧
    (∀ c : String,
      bestSimilarityAgainst d c s1 sr ∈
        (1 / (1 + d c s1)) :: sr.map (fun sc => 1 / (1 + d c sc)) ∧
      ∀ x ∈ (1 / (1 + d c s1)) :: sr.map (fun sc => 1 / (1 + d c sc)),
        x ≤ bestSimilarityAgainst d c s1 sr) := by
  refine ⟨?_, rfl, by norm_num [defaultBackgroundWeight], ?_⟩
  · simp [calculate_weighted_color_similarity, specWeightedScore]
  · intro c
    exact ⟨listMax_mem _ _, le_listMax _ _⟩

/-- C9: the type filter keeps exactly the candidates whose tag equals the
requested type or the universal `both` tag (the spec's drop-predicate), and
on the spec's example pair the light-tagged candidate is dropped entirely
for the requested type `dark`. -/
theorem filter_wallpapers_by_type_spec (wallpapers : List Wallpaper) (t : String) :
    filter_wallpapers_by_type wallpapers t =
      wallpapers.filter (fun w => decide (specTypeKeep w t)) ∧
    filter_wallpapers_by_type
      [⟨"w1", "dark", some ["#000000", "#111111"]⟩,
       ⟨"w2", "light", some ["#ffffff"]⟩] "dark" =
      [⟨"w1", "dark", some ["#000000", "#111111"]⟩] := by
  constructor
  · apply List.filter_congr
    intro w _
    by_cases h1 : w.type = t <;> by_cases h2 : w.type = "both" <;>
      simp [specTypeKeep, h1, h2]
  · rfl

lemma dDisc_same (s : String) : dDisc s s = 0 := by simp [dDisc]

lemma dDisc_ne (a b : String) (h : a ≠ b) : dDisc a b = 1 := by simp [dDisc, h]

lemma insertDesc_length (x : Wallpaper × ℚ) :
    ∀ l : List (Wallpaper × ℚ), (insertDesc x l).length = l.length + 1 := by
  intro l
  induction l with
  | nil => rfl
  | cons y ys ih =>
    simp only [insertDesc]
    split
    · simp
    · simp [ih]

lemma foldl_insertDesc_length :
    ∀ (l acc : List (Wallpaper × ℚ)),
      (l.foldl (fun a x => insertDesc x a) acc).length = acc.length + l.length := by
  intro l
  induction l with
  | nil => intro acc; simp
  | cons y ys ih =>
    intro acc
    rw [List.foldl_cons, ih, insertDesc_length, List.length_cons]
    omega

lemma sortDesc_length (l : List (Wallpaper × ℚ)) :
    (sortDesc l).length = l.length := by
  rw [sortDesc, foldl_insertDesc_length]
  simp

/-- The truncation count of the code: `max(1, int(len * p))` is
`max 1 ⌊len·p⌋` for `p > 0`, and it never exceeds `len` for `p ≤ 1`. -/
lemma truncateRanked_length_floor {α : Type} (ranked : List α) (p : ℚ)
    (hL : 1 ≤ ranked.length) (hp0 : 0 < p) (hp1 : p ≤ 1) :
    (truncateRanked ranked p).length = (max 1 ⌊(ranked.length : ℚ) * p⌋).toNat := by
  have hq0 : (0 : ℚ) ≤ (ranked.length : ℚ) * p :=
    mul_nonneg (Nat.cast_nonneg _) (le_of_lt hp0)
  have htr : truncInt ((ranked.length : ℚ) * p) = ⌊(ranked.length : ℚ) * p⌋ := by
    rw [truncInt_eq, if_pos hq0]
  have hfl : ⌊(ranked.length : ℚ) * p⌋ ≤ (ranked.length : ℤ) := by
    have hc0 : (0 : ℚ) ≤ (ranked.length : ℚ) := Nat.cast_nonneg _
    have hle : (ranked.length : ℚ) * p ≤ (ranked.length : ℚ) := by nlinarith
    calc ⌊(ranked.length : ℚ) * p⌋ ≤ ⌊(ranked.length : ℚ)⌋ := Int.floor_le_floor hle
      _ = (ranked.length : ℤ) := Int.floor_natCast _
  have hmax : max 1 ⌊(ranked.length : ℚ) * p⌋ ≤ (ranked.length : ℤ) := by
    apply max_le _ hfl
    exact_mod_cast hL
  rw [truncateRanked, List.length_take, topCount, htr]
  apply min_eq_left
  generalize hgen : max 1 ⌊(ranked.length : ℚ) * p⌋ = A at hmax ⊢
  omega

/-- C2 amended: when the scoring pass succeeds with `L ≥ 1` ranked
candidates and `keepFraction = p ∈ (0,1]`, `rank` returns exactly
`max(1, floor(L·p))` candidates — the code truncates with Python `int`
(floor for non-negative values), not with `ceil`. -/
theorem rank_truncation_keeps_floor (d : String → String → ℚ)
    (wallpapers : List Wallpaper) (scheme : List String) (p : ℚ)
    (scored : List (Wallpaper × ℚ))
    (hcol : rankCollect d scheme wallpapers = some scored)
    (hL : 1 ≤ scored.length) (hp0 : 0 < p) (hp1 : p ≤ 1) :
    ∃ res, rank_wallpapers_by_color_similarity d wallpapers scheme (some p) =
        some res ∧
      res.length = (max 1 ⌊(scored.length : ℚ) * p⌋).toNat := by
  refine ⟨(truncateRanked (sortDesc scored) p).map Prod.fst, ?_, ?_⟩
  · rw [rank_wallpapers_by_color_similarity.eq_def, hcol]
  · rw [List.length_map,
      truncateRanked_length_floor (sortDesc scored) p
        (by rw [sortDesc_length]; exact hL) hp0 hp1,
      sortDesc_length]

lemma gvc_le_four (d : String → String → ℚ) (c1 c2 : String) :
    get_varying_colors d [c1, c2] 4 = some [c1, c2] := by
  rw [get_varying_colors.eq_def, if_pos (by simp)]

lemma gvc_one_le_four (d : String → String → ℚ) (c1 : String) :
    get_varying_colors d [c1] 4 = some [c1] := by
  rw [get_varying_colors.eq_def, if_pos (by simp)]

lemma rank3_calc_a :
    calculate_weighted_color_similarity dDisc ["#000000", "#111111"] scheme2
      defaultBackgroundWeight = some (4/5) := by
  rw [calculate_weighted_color_similarity.eq_def]
  norm_num [scheme2, defaultBackgroundWeight, bestSimilarityAgainst, listMax,
    dDisc_same "#000000", dDisc_ne "#111111" "#222222" (by decide)]

lemma rank3_calc_b :
    calculate_weighted_color_similarity dDisc ["#222222", "#333333"] scheme2
      defaultBackgroundWeight = some (1/2) := by
  rw [calculate_weighted_color_similarity.eq_def]
  norm_num [scheme2, defaultBackgroundWeight, bestSimilarityAgainst, listMax,
    dDisc_ne "#222222" "#000000" (by decide),
    dDisc_ne "#333333" "#222222" (by decide)]

lemma rank3_calc_c :
    calculate_weighted_color_similarity dDisc ["#444444", "#555555"] scheme2
      defaultBackgroundWeight = some (1/2) := by
  rw [calculate_weighted_color_similarity.eq_def]
  norm_num [scheme2, defaultBackgroundWeight, bestSimilarityAgainst, listMax,
    dDisc_ne "#444444" "#000000" (by decide),
    dDisc_ne "#555555" "#222222" (by decide)]

lemma rank3_collect :
    rankCollect dDisc scheme2 [wpa, wpb, wpc] =
      some [(wpa, 4/5), (wpb, 1/2), (wpc, 1/2)] := by
  simp [rankCollect, wpa, wpb, wpc, gvc_le_four,
    rank3_calc_a, rank3_calc_b, rank3_calc_c]

lemma rank3_sort :
    sortDesc [(wpa, 4/5), (wpb, 1/2), (wpc, 1/2)] =
      [(wpa, 4/5), (wpb, 1/2), (wpc, 1/2)] := by
  norm_num [sortDesc, insertDesc]

/-- C2 counterexample: three rankable candidates and `keepFraction = 1/2`.
The code returns `max(1, int(3 · 1/2)) = 1` candidate, whereas the claimed
`max(1, ceil(3 · 1/2))` would be 2. -/
theorem rank_keepfraction_floor_not_ceil :
    rank_wallpapers_by_color_similarity dDisc [wpa, wpb, wpc] scheme2
      (some (1/2)) = some [wpa] ∧
    (max 1 ⌈(3 : ℚ) * (1/2)⌉).toNat = 2 := by
  constructor
  · rw [rank_wallpapers_by_color_similarity.eq_def, rank3_collect]
    have htc : topCount 3 (1/2) = 1 := by
      rw [topCount, show ((3 : ℕ) : ℚ) * (1/2) = 3/2 by norm_num, truncInt_eq]
      norm_num
    show some ((truncateRanked
      (sortDesc [(wpa, 4/5), (wpb, 1/2), (wpc, 1/2)]) (1/2)).map Prod.fst) = some [wpa]
    rw [rank3_sort, truncateRanked,
      show ([(wpa, (4:ℚ)/5), (wpb, 1/2), (wpc, 1/2)] :
        List (Wallpaper × ℚ)).length = 3 from rfl, htc]
    rfl
  · have h32 : ⌈(3 : ℚ) * (1/2)⌉ = 2 := by
      rw [show ((3 : ℚ) * (1/2)) = 3/2 by norm_num, Int.ceil_eq_iff]
      constructor <;> norm_num
    rw [h32]
    decide

/-- Witness for `rank_truncation_keeps_floor` at the same concrete input. -/
theorem rank_truncation_keeps_floor_witness :
    (rankCollect dDisc scheme2 [wpa, wpb, wpc] =
        some [(wpa, 4/5), (wpb, 1/2), (wpc, 1/2)] ∧
      1 ≤ ([(wpa, (4:ℚ)/5), (wpb, 1/2), (wpc, 1/2)] : List (Wallpaper × ℚ)).length ∧
      (0 : ℚ) < 1/2 ∧ (1/2 : ℚ) ≤ 1) ∧
    ∃ res, rank_wallpapers_by_color_similarity dDisc [wpa, wpb, wpc] scheme2
        (some (1/2)) = some res ∧
      res.length =
        (max 1 ⌊(([(wpa, (4:ℚ)/5), (wpb, 1/2), (wpc, 1/2)] :
          List (Wallpaper × ℚ)).length : ℚ) * (1/2)⌋).toNat :=
  ⟨⟨rank3_collect, by simp, by norm_num, by norm_num⟩,
   rank_truncation_keeps_floor dDisc [wpa, wpb, wpc] scheme2 (1/2) _
     rank3_collect (by simp) (by norm_num) (by norm_num)⟩

/-- C10: a candidate whose color list reduces to a single diverse color
(here: a one-color palette, returned unchanged by `get_varying_colors`)
makes `calculate_weighted_color_similarity` divide by the length 0 of its
empty accent-similarity list (`ZeroDivisionError`), and
`rank_wallpapers_by_color_similarity` then aborts the whole pass instead of
skipping the candidate — the same pass without the bad candidate returns
normally.  `d` is an arbitrary perceptual distance: the failure does not
depend on any distance value. -/
theorem rank_aborts_on_single_color_candidate (d : String → String → ℚ) :
    calculate_weighted_color_similarity d ["#111111"] scheme2
      defaultBackgroundWeight = none ∧
    rank_wallpapers_by_color_similarity d [wpa, wbad] scheme2 none = none ∧
    rank_wallpapers_by_color_similarity d [wpa] scheme2 none = some [wpa] := by
  refine ⟨rfl, ?_, ?_⟩
  · simp [rank_wallpapers_by_color_similarity, rankCollect, wpa, wbad, scheme2,
      gvc_le_four, gvc_one_le_four, calculate_weighted_color_similarity]
  · simp [rank_wallpapers_by_color_similarity, rankCollect, wpa, scheme2,
      gvc_le_four, calculate_weighted_color_similarity, sortDesc, insertDesc]

/-- Witness for `weighted_similarity_formula` at a concrete instance. -/
theorem weighted_similarity_formula_witness :
    calculate_weighted_color_similarity dDisc ["#000000", "#111111"]
      ["#000000", "#222222"] (3/5) =
    specWeightedScore dDisc ["#000000", "#111111"] ["#000000", "#222222"] (3/5) :=
  (weighted_similarity_formula dDisc "#000000" "#111111" "#000000" "#222222"
    [] [] (3/5)).1

end CWeave
